import Mathlib

/-!
Verification of the Balloon Raw Data Translator (`src/data_translator.py`).

The development shallowly embeds the program: Python strings become `String`,
Python integers become `Int`, Python slicing, `str.strip`, `str.lower`,
`str.split` and `int(...)` are modelled explicitly, exceptions become
`Option`, and console side effects (warnings, diagnostics) are modelled as
explicit outputs (flags and counters).
-/

namespace BalloonRDT

/-- ASCII whitespace, as recognized by Python `str.strip()` (the program
only ever handles ASCII configuration and data text). -/
def pyIsSpace (c : Char) : Bool :=
  c = ' ' || c = '\t' || c = '\n' || c = '\r' || c = '\x0b' || c = '\x0c'

/-- Python `str.strip()` on a character list: remove leading and trailing
whitespace. -/
def pyStripList (l : List Char) : List Char :=
  ((l.dropWhile pyIsSpace).reverse.dropWhile pyIsSpace).reverse

/-- Python `str.strip()`. -/
def pyStrip (s : String) : String := String.mk (pyStripList s.data)

/-- Python `str.lower()` on one ASCII character. -/
def pyLowerChar (c : Char) : Char :=
  if 'A' ≤ c && c ≤ 'Z' then Char.ofNat (c.toNat + 32) else c

/-- Python `str.lower()` (ASCII fragment). -/
def pyLower (s : String) : String := String.mk (s.data.map pyLowerChar)

/-- Python slice-index normalization: a negative index counts from the end
(clamped at 0), a non-negative index is clamped at the length. -/
def pyNormIdx (n : Nat) (i : Int) : Nat :=
  if i < 0 then ((n : Int) + i).toNat else min i.toNat n

/-- Python string slice `s[i:j]` (step 1). -/
def pySlice (s : String) (i j : Int) : String :=
  let cs := s.data
  String.mk ((cs.take (pyNormIdx cs.length j)).drop (pyNormIdx cs.length i))

/-- Python `str.split(sep)` for a one-character separator, on character
lists: `splitCharAux sep rest acc` processes `rest` with `acc` holding the
(reversed) characters of the current token. -/
def splitCharAux (sep : Char) : List Char → List Char → List (List Char)
  | [], acc => [acc.reverse]
  | c :: rest, acc =>
    if c = sep then acc.reverse :: splitCharAux sep rest []
    else splitCharAux sep rest (c :: acc)

/-- Python `str.split(sep)` for a one-character separator. -/
def pySplit (sep : Char) (s : String) : List String :=
  (splitCharAux sep s.data []).map String.mk

/-- Decimal value of a digit group. -/
def digitsVal (l : List Char) : Nat :=
  l.foldl (fun a c => a * 10 + (c.toNat - 48)) 0

/-- Python `int(str)` digit part: groups separated by single underscores,
each group a nonempty run of ASCII digits (the grammar
`digit (["_"] digit)*`). Returns the decimal value when well formed. -/
def pyDigits (l : List Char) : Option Nat :=
  let groups := splitCharAux '_' l []
  if groups.all (fun g => decide (g ≠ []) && g.all Char.isDigit) then
    some (digitsVal groups.flatten)
  else
    none

/-- Python `int(str)` on ASCII text: surrounding whitespace is stripped, an
optional single sign is allowed, and the rest must be a well-formed digit
part; any other input raises `ValueError`, modelled as `none`. -/
def pyInt (s : String) : Option Int :=
  match pyStripList s.data with
  | '+' :: rest => (pyDigits rest).map (fun n => (n : Int))
  | '-' :: rest => (pyDigits rest).map (fun n => -(n : Int))
  | t => (pyDigits t).map (fun n => (n : Int))

/-- The state of one `DataPart` object (`data_translator.py`, class
`DataPart`): a field name and the inclusive lower/upper character offsets. -/
structure DataPart where
  item_name : String
  lower_index : Int
  upper_index : Int
deriving DecidableEq

/-- `DataPart.verify_index_order` (lines 49-59): swaps the two indices when
`lower_index > upper_index`; the returned flag records whether the
correction notice was printed. -/
def verify_index_order (d : DataPart) : DataPart × Bool :=
  if d.lower_index > d.upper_index then
    (⟨d.item_name, d.upper_index, d.lower_index⟩, true)
  else
    (d, false)

/-- `DataPart.__init__` (lines 40-47): store the three values, then run
`verify_index_order`. The flag records whether a correction notice was
emitted. -/
def DataPart.make (name : String) (lower_bounds upper_bounds : Int) : DataPart × Bool :=
  verify_index_order ⟨name, lower_bounds, upper_bounds⟩

/-- `DataPart.get_data_string` (lines 61-64):
`"{}: {}".format(self.item_name, data[self.lower_index:self.upper_index + 1])`. -/
def DataPart.get_data_string (d : DataPart) (data : String) : String :=
  d.item_name ++ ": " ++ pySlice data d.lower_index (d.upper_index + 1)

/-- The substring of `s` from character offset `l` to offset `u` inclusive,
truncated to the characters of `s` that exist in that range. This is the
specification-side description of the extraction; the code-side behaviour is
`pySlice`. -/
def specInclusiveSub (s : String) (l u : Nat) : String :=
  String.mk ((s.data.drop l).take (u + 1 - l))

/-- Line filtering (`load_to_data_parts`, lines 119-123): strip the line;
keep it when it is nonempty and its first character is not `;`. -/
def keepLine (i : String) : Option String :=
  match pyStripList i.data with
  | [] => none
  | c :: cs => if c = ';' then none else some (String.mk (c :: cs))

/-- The `line_data` list (`load_to_data_parts`, lines 122-123): the stripped
non-comment, non-blank lines, in file order. -/
def lineData (lines : List String) : List String :=
  lines.filterMap keepLine

/-- The `try` block of `load_to_data_parts` (lines 131-135): split the line
on `,`, read tokens 0, 1 and 2, convert tokens 1 and 2 with `int(...)`, and
construct the `DataPart`. An `IndexError` (missing token) or `ValueError`
(bad integer) is modelled as `none`; the `Bool` is the correction-notice
flag of the constructor. -/
def tryMakePart (t : String) : Option (DataPart × Bool) :=
  let line_parts := pySplit ',' t
  match line_parts.get? 0, line_parts.get? 1, line_parts.get? 2 with
  | some p0, some s1, some s2 =>
    match pyInt s1, pyInt s2 with
    | some a, some b => some (DataPart.make p0 a b)
    | _, _ => none
  | _, _, _ => none

/-- The per-line loop of `load_to_data_parts` (lines 129-141): each kept
line either contributes a `DataPart` or is skipped with one error
diagnostic; the second component counts the diagnostics. -/
def processLines : List String → List DataPart × Nat
  | [] => ([], 0)
  | t :: rest =>
    let r := processLines rest
    match tryMakePart t with
    | some (d, _) => (d :: r.1, r.2)
    | none => (r.1, r.2 + 1)

/-- `FileProcessor.load_to_data_parts` (lines 108-141) applied to the lines
read from the configuration file: filter out comments and blanks, then
convert each remaining line, skipping (with a diagnostic) the ones that
fail. -/
def load_to_data_parts (lines : List String) : List DataPart × Nat :=
  processLines (lineData lines)

/-- Split the text of a file into its lines (the program strips every line it
uses, so the trailing newline kept by Python `readlines` is immaterial). -/
def pyLines (s : String) : List String :=
  (splitCharAux '\n' s.data []).map String.mk

/-- The `header_comment` string of `FileProcessor.create_default_file`
(lines 151-176), reproduced verbatim. -/
def header_comment : String :=
  "; Balloon Raw Data Translator v0.1" ++
  "\n; Created by: Thomas Westpfal" ++
  "\n; Filter Data Format: v1.0" ++
  "\n; Commented lines are denoted with a \x27;\x27" ++
  "\n;" ++
  "\n; NOTE: Use this file to modify the way the \x27Data Translator\x27 filters" ++
  "\n; the given data." ++
  "\n;" ++
  "\n; The \x27lower_index\x27 is position of the starting character and the" ++
  "\n; \x27upper_index\x27 is the position of the last character (inclusive)" ++
  "\n;" ++
  "\n; Indices start with the first character being 0 and include all" ++
  "\n; characters (i.e. includes spaces)" ++
  "\n;" ++
  "\n; Ex. \x27test sentence\x27 -> \x7b1, 8\x7d will give you -> \x27est sent\x27" ++
  "\n;" ++
  "\n; The \x27name\x27 of any of the items MUST NOT contain a \x27;\x27 or a \x27,\x27" ++
  "\n; ANY USAGE of these characters in the \x27name\x27 will break the way" ++
  "\n; the file is read." ++
  "\n;" ++
  "\n; If this file is ever deleted, a new one will automatically be created" ++
  "\n; with all of the default values." ++
  "\n;" ++
  "\n; name,lower_index,upper_index"

/-- The `default_filter` string of `FileProcessor.create_default_file`
(lines 178-196), reproduced verbatim. -/
def default_filter : String :=
  "\n" ++
  "\nPACKET SEND TIME, 1, 7" ++
  "\n| - hour, 1, 2" ++
  "\n| - minute, 3, 4" ++
  "\n| - second, 5, 6" ++
  "\nLATITUDE COORDINATES, 8, 15" ++
  "\nLONGITUDE COORDINATES, 17, 25" ++
  "\nBALLOON INDICATOR, 26, 26" ++
  "\nCOURSE (degrees), 27, 29" ++
  "\nSPEED (nautical miles), 31, 33" ++
  "\nALTITUDE (feet), 37, 42" ++
  "\nTELEMETRY COUNTER, 44, 49" ++
  "\nTEMPERATURE (celsius), 53, 56" ++
  "\nPRESSURE (millibars), 60, 65" ++
  "\nBATTERY VOLTAGE (volts), 71, 74" ++
  "\nVALID SATELLITES, 77, 78" ++
  "\nCOMMENT, 81, 999"

/-- `FileProcessor.create_default_file` (lines 143-199) writes
`header_comment` followed by `default_filter` to the file. -/
def create_default_file_content : String := header_comment ++ default_filter

/-- Observable outcome of one `FileProcessor.load_to_data_parts` call at
the filesystem level: whether the missing-file warning was printed, what
content (if any) was written to the file, and the parts and per-line
diagnostics of the load itself. -/
structure LoadOutcome where
  warned : Bool
  written : Option String
  parts : List DataPart
  diags : Nat
deriving DecidableEq

/-- `FileProcessor.load_to_data_parts` (lines 108-141) including the
missing-file branch (lines 112-114): when the file does not exist, the
warning is printed, `create_default_file` writes the default content, and
that same call then reads the content just written; otherwise the existing
file content is read. -/
def load_to_data_parts_fs (fileExists : Bool) (fileContent : String) : LoadOutcome :=
  if fileExists then
    let r := load_to_data_parts (pyLines fileContent)
    ⟨false, none, r.1, r.2⟩
  else
    let r := load_to_data_parts (pyLines create_default_file_content)
    ⟨true, some create_default_file_content, r.1, r.2⟩

/-- `Operator.display_items` (lines 214-222): the lines printed to the
console, in order, for one raw data string. -/
def display_items (data_parts : List DataPart) (data : String) : List String :=
  "\n====================================" ::
    data_parts.map (fun i => i.get_data_string data) ++
    ["====================================\n", "\nPress enter to continue."]

/-- `Operator.display_items` with the field sequence threaded as explicit
state: the Python body only reads `data_parts` (it never assigns to the
list or to any `DataPart` attribute), so the state after the call is the
list it was given. -/
def display_items_state (data_parts : List DataPart) (data : String) :
    List String × List DataPart :=
  (display_items data_parts data, data_parts)

/-- Repeated invocations of `display_items` on a sequence of raw input
strings, threading the field-sequence state through every call. -/
def display_session (data_parts : List DataPart) (inputs : List String) : List DataPart :=
  inputs.foldl (fun ps d => (display_items_state ps d).2) data_parts

/-- One iteration of the `__main__` loop (lines 247-255): strip the entered
string, lowercase its re-stripped form, and either end the session (`none`)
on a quit sentinel or hand the stripped input to the display routine
(`some`) and continue. -/
def main_loop_step (s : String) : Option String :=
  let raw_data := pyStrip s
  let current_input := pyLower (pyStrip raw_data)
  if current_input = "q" ∨ current_input = "quit" ∨ current_input = "exit" then none
  else some raw_data

/-- Helper: for non-negative in-order bounds, the Python slice
`s[l : u+1]` is exactly the inclusive-range substring with clipping. -/
theorem pySlice_eq_specInclusiveSub (s : String) (l u : Int)
    (h0 : 0 ≤ l) (hlu : l ≤ u) :
    pySlice s l (u + 1) = specInclusiveSub s l.toNat u.toNat := by
  show String.mk ((s.data.take (pyNormIdx s.data.length (u + 1))).drop (pyNormIdx s.data.length l)) =
    specInclusiveSub s l.toNat u.toNat
  unfold specInclusiveSub pyNormIdx
  have hneg1 : ¬ (l < 0) := by omega
  have hneg2 : ¬ (u + 1 < 0) := by omega
  have htn : (u + 1).toNat = u.toNat + 1 := by omega
  rw [if_neg hneg2, if_neg hneg1, htn]
  set cs := s.data with hcs
  set n := cs.length with hn
  set l' := l.toNat with hl'
  set u' := u.toNat with hu'
  have hl'u' : l' ≤ u' + 1 := by omega
  -- rewrite the right-hand side as drop-of-take
  have hrhs : (cs.drop l').take (u' + 1 - l') = (cs.take (u' + 1)).drop l' := by
    rw [List.take_drop]
    congr 2
    omega
  rw [hrhs]
  -- the clamped take equals the unclamped take
  have htake : cs.take (min (u' + 1) n) = cs.take (u' + 1) := by
    rcases le_or_lt (u' + 1) n with h | h
    · rw [min_eq_left h]
    · rw [min_eq_right (le_of_lt h), List.take_of_length_le (by omega),
        List.take_of_length_le (by omega)]
  rw [htake]
  -- the clamped drop equals the unclamped drop
  rcases le_or_lt l' n with h | h
  · rw [min_eq_left h]
  · rw [min_eq_right (le_of_lt h)]
    have hlen : (cs.take (u' + 1)).length ≤ n := by
      rw [List.length_take]
      omega
    rw [List.drop_eq_nil_iff.mpr hlen, List.drop_eq_nil_iff.mpr (by omega)]

/-- C1: for a `DataPart` with in-order non-negative bounds `l ≤ u`,
`get_data_string s` returns exactly `name ++ ": " ++` the substring of `s`
from offset `l` to offset `u` inclusive, silently truncated to the
characters of `s` that exist in that range. -/
theorem C1_get_data_string_inclusive_range (n : String) (l u : Int) (s : String)
    (h0 : 0 ≤ l) (hlu : l ≤ u) :
    DataPart.get_data_string ⟨n, l, u⟩ s = n ++ ": " ++ specInclusiveSub s l.toNat u.toNat := by
  show n ++ ": " ++ pySlice s l (u + 1) = n ++ ": " ++ specInclusiveSub s l.toNat u.toNat
  rw [pySlice_eq_specInclusiveSub s l u h0 hlu]

/-- Witness for C1, containing the end-to-end example from the spec: the
field `("hour", 1, 2)` against source `"/231641h..."` yields `"hour: 23"`. -/
theorem C1_witness :
    DataPart.get_data_string ⟨"hour", 1, 2⟩ "/231641h..." =
      "hour" ++ ": " ++ specInclusiveSub "/231641h..." 1 2 ∧
    DataPart.get_data_string ⟨"hour", 1, 2⟩ "/231641h..." = "hour: 23" := by
  refine ⟨C1_get_data_string_inclusive_range "hour" 1 2 "/231641h..." (by decide) (by decide), ?_⟩
  decide

/-- Helper: constructing a `DataPart` computes an if-then-else on the
inverted-order test. -/
theorem make_eq_ite (name : String) (a b : Int) :
    DataPart.make name a b =
      if a > b then (⟨name, b, a⟩, true) else (⟨name, a, b⟩, false) := rfl

/-- Helper: construction always leaves the indices in order. -/
theorem make_lower_le_upper (name : String) (a b : Int) :
    (DataPart.make name a b).1.lower_index ≤ (DataPart.make name a b).1.upper_index := by
  rw [make_eq_ite]
  by_cases h : a > b
  · rw [if_pos h]
    show b ≤ a
    omega
  · rw [if_neg h]
    show a ≤ b
    omega

/-- C2: constructing `DataPart(name, a, b)` with `a > b` yields
`lower_index = b`, `upper_index = a` and emits the correction notice; with
`a ≤ b` it leaves the values unchanged and emits no notice; in both cases
`lower_index ≤ upper_index` holds afterwards. -/
theorem C2_constructor_swaps_inverted_bounds (name : String) (a b : Int) :
    (a > b → DataPart.make name a b = (⟨name, b, a⟩, true)) ∧
    (a ≤ b → DataPart.make name a b = (⟨name, a, b⟩, false)) ∧
    (DataPart.make name a b).1.lower_index ≤ (DataPart.make name a b).1.upper_index := by
  refine ⟨?_, ?_, make_lower_le_upper name a b⟩
  · intro h
    rw [make_eq_ite, if_pos h]
  · intro h
    rw [make_eq_ite, if_neg (not_lt.mpr h)]

/-- Witness for C2 at the inverted input `(5, 2)` and the in-order input
`(2, 5)`. -/
theorem C2_witness :
    DataPart.make "x" 5 2 = (⟨"x", 2, 5⟩, true) ∧
    DataPart.make "x" 2 5 = (⟨"x", 2, 5⟩, false) :=
  ⟨(C2_constructor_swaps_inverted_bounds "x" 5 2).1 (by decide),
   (C2_constructor_swaps_inverted_bounds "x" 2 5).2.1 (by decide)⟩

/-- C10: when the source string is no longer than `lower_index` (with
`0 ≤ lower_index ≤ upper_index`), the extracted part is empty and
`get_data_string` returns exactly `name ++ ": "`, with no error. -/
theorem C10_short_source_empty_extract (n : String) (l u : Int) (s : String)
    (h0 : 0 ≤ l) (hlu : l ≤ u) (hlen : (s.length : Int) ≤ l) :
    DataPart.get_data_string ⟨n, l, u⟩ s = n ++ ": " := by
  show n ++ ": " ++ pySlice s l (u + 1) = n ++ ": "
  rw [pySlice_eq_specInclusiveSub s l u h0 hlu]
  unfold specInclusiveSub
  have hd : s.data.drop l.toNat = [] := by
    rw [List.drop_eq_nil_iff]
    have hls : s.data.length = s.length := rfl
    omega
  rw [hd, List.take_nil]
  show n ++ ": " ++ "" = n ++ ": "
  exact String.append_empty _

/-- Witness for C10 at a concrete short source. -/
theorem C10_witness :
    DataPart.get_data_string ⟨"f", 5, 7⟩ "abc" = "f: " :=
  C10_short_source_empty_extract "f" 5 7 "abc" (by decide) (by decide) (by decide)


/-- Helper: every `DataPart` in the processed list arises from a
successful `tryMakePart`, in the original order, and the diagnostic count
is the number of failing lines. -/
theorem processLines_spec (ts : List String) :
    (processLines ts).1 = ts.filterMap (fun t => (tryMakePart t).map Prod.fst) ∧
    (processLines ts).1.length = (ts.filter (fun t => (tryMakePart t).isSome)).length ∧
    (processLines ts).2 = (ts.filter (fun t => (tryMakePart t).isNone)).length := by
  induction ts with
  | nil => exact ⟨rfl, rfl, rfl⟩
  | cons t rest ih =>
    obtain ⟨ih1, ih2, ih3⟩ := ih
    cases h : tryMakePart t with
    | none =>
      refine ⟨?_, ?_, ?_⟩
      · simp [processLines, h, ih1]
      · simp [processLines, h, ih2]
      · simp [processLines, h, ih3]
    | some db =>
      obtain ⟨d, b⟩ := db
      refine ⟨?_, ?_, ?_⟩
      · simp [processLines, h, ih1]
      · simp [processLines, h, ih2]
      · simp [processLines, h, ih3]

/-- C3: loading any configuration produces exactly the `DataPart`s of the
lines that convert successfully, in the original relative order (the
`filterMap` over the kept lines), with one diagnostic per failing line and
no abort: the part count is the number of valid lines and the diagnostic
count is the number of invalid lines. -/
theorem C3_load_valid_lines_in_order (lines : List String) :
    (load_to_data_parts lines).1 =
      (lineData lines).filterMap (fun t => (tryMakePart t).map Prod.fst) ∧
    (load_to_data_parts lines).1.length =
      ((lineData lines).filter (fun t => (tryMakePart t).isSome)).length ∧
    (load_to_data_parts lines).2 =
      ((lineData lines).filter (fun t => (tryMakePart t).isNone)).length :=
  processLines_spec (lineData lines)

/-- Helper: a stripped line that is neither blank nor a comment is kept by
the line filter, as its stripped form. -/
theorem keepLine_eq_some (t : String) (hne : pyStrip t ≠ "")
    (hcm : (pyStrip t).data.head? ≠ some ';') :
    keepLine t = some (pyStrip t) := by
  unfold keepLine
  cases h : pyStripList t.data with
  | nil =>
    exfalso
    apply hne
    unfold pyStrip
    rw [h]
  | cons c cs =>
    have hc : c ≠ ';' := by
      intro hc
      apply hcm
      unfold pyStrip
      rw [h, hc]
      rfl
    show (if c = ';' then none else some (String.mk (c :: cs))) = some (pyStrip t)
    rw [if_neg hc]
    unfold pyStrip
    rw [h]

/-- Helper: a line whose comma-split has fewer than three tokens, or whose
second or third token does not parse as an integer, fails to convert. -/
theorem tryMakePart_eq_none (t : String)
    (hfail : (pySplit ',' t).length < 3 ∨
      ((pySplit ',' t).get? 1).bind pyInt = none ∨
      ((pySplit ',' t).get? 2).bind pyInt = none) :
    tryMakePart t = none := by
  simp only [tryMakePart]
  cases h0 : (pySplit ',' t).get? 0 <;>
    cases h1 : (pySplit ',' t).get? 1 <;>
      cases h2 : (pySplit ',' t).get? 2 <;>
        try rfl
  rename_i p0 s1 s2
  have hnone : pyInt s1 = none ∨ pyInt s2 = none := by
    rcases hfail with hf | hf | hf
    · exfalso
      rcases List.get?_eq_some.mp h2 with ⟨hlt, _⟩
      omega
    · left
      rwa [h1, Option.some_bind] at hf
    · right
      rwa [h2, Option.some_bind] at hf
  rcases hnone with hn | hn <;>
    cases h3 : pyInt s1 <;> cases h4 : pyInt s2 <;> simp_all

/-- C4 counterexample: the line `"a,1,2,3"` splits into four tokens, yet
the load produces a `DataPart` from its first three tokens and emits no
diagnostic, contrary to the claim that any token count other than three is
rejected with a diagnostic. -/
theorem C4_counterexample_extra_tokens_accepted :
    (pySplit ',' "a,1,2,3").length = 4 ∧
    load_to_data_parts ["a,1,2,3"] = ([⟨"a", 1, 2⟩], 0) := by
  decide

/-- C4 (amended): for every non-comment, non-blank configuration line, if
splitting the (stripped) line on `,` yields fewer than three tokens, or the
second or third token does not parse as an integer, then the load produces
no `DataPart` for that line, emits one diagnostic, and continues with the
surrounding lines unchanged. (Lines with more than three tokens are not
rejected: the first three tokens are used and the rest are ignored.) -/
theorem C4_amended_bad_line_skipped (pre post : List String) (t : String)
    (hne : pyStrip t ≠ "") (hcm : (pyStrip t).data.head? ≠ some ';')
    (hfail : (pySplit ',' (pyStrip t)).length < 3 ∨
      ((pySplit ',' (pyStrip t)).get? 1).bind pyInt = none ∨
      ((pySplit ',' (pyStrip t)).get? 2).bind pyInt = none) :
    tryMakePart (pyStrip t) = none ∧
    (load_to_data_parts (pre ++ t :: post)).1 = (load_to_data_parts (pre ++ post)).1 ∧
    (load_to_data_parts (pre ++ t :: post)).2 = (load_to_data_parts (pre ++ post)).2 + 1 := by
  have hnone := tryMakePart_eq_none (pyStrip t) hfail
  have hld : lineData (pre ++ t :: post) = lineData pre ++ pyStrip t :: lineData post := by
    simp [lineData, List.filterMap_cons, keepLine_eq_some t hne hcm]
  have hld2 : lineData (pre ++ post) = lineData pre ++ lineData post := by
    simp [lineData]
  refine ⟨hnone, ?_, ?_⟩
  · show (processLines (lineData (pre ++ t :: post))).1 =
      (processLines (lineData (pre ++ post))).1
    rw [(processLines_spec (lineData (pre ++ t :: post))).1,
      (processLines_spec (lineData (pre ++ post))).1, hld, hld2]
    simp [List.filterMap_cons, hnone]
  · show (processLines (lineData (pre ++ t :: post))).2 =
      (processLines (lineData (pre ++ post))).2 + 1
    rw [(processLines_spec (lineData (pre ++ t :: post))).2.2,
      (processLines_spec (lineData (pre ++ post))).2.2, hld, hld2]
    simp [List.filter_cons, List.filter_append, hnone]
    omega

/-- Helper: `dropWhile` is idempotent. -/
theorem dropWhile_dropWhile {α : Type} (p : α → Bool) (l : List α) :
    (l.dropWhile p).dropWhile p = l.dropWhile p := by
  induction l with
  | nil => rfl
  | cons a as ih =>
    by_cases h : p a
    · rw [List.dropWhile_cons_of_pos h]
      exact ih
    · rw [List.dropWhile_cons_of_neg h, List.dropWhile_cons_of_neg h]

/-- Helper: the head surviving a `dropWhile` fails the predicate. -/
theorem dropWhile_head_false {α : Type} (p : α → Bool) (l : List α) (b : α) (bs : List α)
    (h : l.dropWhile p = b :: bs) : p b = false := by
  induction l with
  | nil => exact absurd h (by simp)
  | cons a as ih =>
    by_cases hp : p a
    · rw [List.dropWhile_cons_of_pos hp] at h
      exact ih h
    · rw [List.dropWhile_cons_of_neg hp] at h
      cases h
      cases hv : p b
      · rfl
      · exact absurd hv hp

/-- Helper: `dropWhile` is the identity on a list whose head fails the
predicate. -/
theorem dropWhile_of_head_false {α : Type} (p : α → Bool) (b : α) (bs : List α)
    (hb : p b = false) : (b :: bs).dropWhile p = b :: bs :=
  List.dropWhile_cons_of_neg (by simp [hb])

/-- Helper: Python `strip` is idempotent (character-list version). -/
theorem pyStripList_idem (l : List Char) :
    pyStripList (pyStripList l) = pyStripList l := by
  unfold pyStripList
  generalize hA : l.dropWhile pyIsSpace = A
  have hstep1 : (A.reverse.dropWhile pyIsSpace).reverse.dropWhile pyIsSpace =
      (A.reverse.dropWhile pyIsSpace).reverse := by
    rcases hB : (A.reverse.dropWhile pyIsSpace).reverse with _ | ⟨b, bs⟩
    · rfl
    · refine dropWhile_of_head_false pyIsSpace b bs ?_
      obtain ⟨u, hu⟩ := List.dropWhile_suffix (l := A.reverse) pyIsSpace
      have hA2 : A = (A.reverse.dropWhile pyIsSpace).reverse ++ u.reverse := by
        have h3 := congrArg List.reverse hu
        rw [List.reverse_append, List.reverse_reverse] at h3
        exact h3.symm
      rw [hB] at hA2
      exact dropWhile_head_false pyIsSpace l b (bs ++ u.reverse) (by rw [hA, hA2]; rfl)
  rw [hstep1, List.reverse_reverse, dropWhile_dropWhile]

/-- Helper: Python `strip` is idempotent. -/
theorem pyStrip_idem (s : String) : pyStrip (pyStrip s) = pyStrip s := by
  show String.mk (pyStripList (pyStripList s.data)) = String.mk (pyStripList s.data)
  rw [pyStripList_idem]

/-- Helper: `int(...)` ignores surrounding whitespace: parsing a stripped
token gives the same result as parsing the raw token. -/
theorem pyInt_pyStrip (s : String) : pyInt (pyStrip s) = pyInt s := by
  unfold pyInt
  have h : pyStripList (pyStrip s).data = pyStripList s.data := pyStripList_idem s.data
  rw [h]

/-- C5 counterexample: for the data line `"X , 5 , 1"` (whitespace before
the first comma) the claim predicts a field named `"X"`, but the load keeps
the name token verbatim, producing the name `"X "` with a trailing space. -/
theorem C5_counterexample_name_keeps_whitespace :
    load_to_data_parts ["X , 5 , 1"] = ([⟨"X ", 1, 5⟩], 0) ∧ "X " ≠ "X" := by
  decide

/-- C5 (amended): whitespace around the two integer tokens is tolerated
(`int(...)` strips it), and the name token is used exactly as produced by
splitting the stripped line, so only whitespace at the very start of the
line is removed from the name; whitespace between the name and the first
comma is kept. The spec example still holds: `"X, 5 , 1"` yields the field
`("X", 1, 5)` (bounds swapped), and against `"abcdefgh"` its description is
`"X: bcdef"`. -/
theorem C5_amended_int_tokens_trimmed_name_verbatim :
    (∀ s : String, pyInt (pyStrip s) = pyInt s) ∧
    (∀ (t n0 s1 s2 : String) (a b : Int),
      pySplit ',' t = [n0, s1, s2] → pyInt s1 = some a → pyInt s2 = some b →
      tryMakePart t = some (DataPart.make n0 a b)) ∧
    load_to_data_parts ["X, 5 , 1"] = ([⟨"X", 1, 5⟩], 0) ∧
    DataPart.get_data_string ⟨"X", 1, 5⟩ "abcdefgh" = "X: bcdef" := by
  refine ⟨pyInt_pyStrip, ?_, by decide, by decide⟩
  intro t n0 s1 s2 a b hsplit h1 h2
  unfold tryMakePart
  rw [hsplit]
  show (match pyInt s1, pyInt s2 with
        | some a, some b => some (DataPart.make n0 a b)
        | _, _ => none) = some (DataPart.make n0 a b)
  rw [h1, h2]

/-- Witness for C5 at the concrete line `"a, 2 , 7"`. -/
theorem C5_witness :
    pyInt (pyStrip " 17 ") = pyInt " 17 " ∧
    tryMakePart "a, 2 , 7" = some (DataPart.make "a" 2 7) :=
  ⟨C5_amended_int_tokens_trimmed_name_verbatim.1 " 17 ",
   C5_amended_int_tokens_trimmed_name_verbatim.2.1 "a, 2 , 7" "a" " 2 " " 7" 2 7
     (by decide) (by decide) (by decide)⟩

/-- Helper: every successful line conversion produces a `DataPart` through
the constructor (and hence through `verify_index_order`). -/
theorem tryMakePart_shape (t : String) (p : DataPart × Bool)
    (h : tryMakePart t = some p) : ∃ n a b, p = DataPart.make n a b := by
  simp only [tryMakePart] at h
  split at h
  · split at h
    · injection h with h2
      exact ⟨_, _, _, h2.symm⟩
    · exact Option.noConfusion h
  · exact Option.noConfusion h

/-- C7 counterexample: the configuration line `"neg,-3,5"` loads into a
`DataPart` whose `lower_index` is the negative integer `-3`, so loaded
indices are not always non-negative. -/
theorem C7_counterexample_negative_index_loaded :
    load_to_data_parts ["neg,-3,5"] = ([⟨"neg", -3, 5⟩], 0) ∧
    (⟨"neg", -3, 5⟩ : DataPart).lower_index < 0 := by
  decide

/-- C7 (amended): every `DataPart` produced by `load_to_data_parts` from
any configuration source satisfies `lower_index ≤ upper_index`, but the two
indices are integers that may be negative: non-negativity is not enforced
by loading. -/
theorem C7_amended_loaded_parts_ordered (lines : List String) (d : DataPart)
    (hd : d ∈ (load_to_data_parts lines).1) :
    d.lower_index ≤ d.upper_index := by
  have h1 := (processLines_spec (lineData lines)).1
  rw [show (load_to_data_parts lines).1 = (processLines (lineData lines)).1 from rfl,
    h1, List.mem_filterMap] at hd
  obtain ⟨t, _, hft⟩ := hd
  cases hp : tryMakePart t with
  | none =>
    rw [hp] at hft
    exact Option.noConfusion hft
  | some p =>
    rw [hp] at hft
    obtain ⟨n, a, b, hpe⟩ := tryMakePart_shape t p hp
    have hd2 : d = p.1 := by
      injection hft with h2
      exact h2.symm
    rw [hd2, hpe]
    exact make_lower_le_upper n a b

/-- Witness for C7 (amended) at a concrete one-line configuration. -/
theorem C7_witness :
    (⟨"a", 1, 2⟩ : DataPart).lower_index ≤ (⟨"a", 1, 2⟩ : DataPart).upper_index :=
  C7_amended_loaded_parts_ordered ["a,1,2"] ⟨"a", 1, 2⟩ (by decide)

/-- C6: invoking the load on a missing file prints the warning, writes the
default content (a 24-line header comment block, then a blank line, then
data lines of which the first, `"PACKET SEND TIME, 1, 7"`, parses
successfully), and the same call then returns the non-empty list of
`DataPart`s read from that newly created content. -/
theorem C6_missing_file_creates_default (c : String) :
    (load_to_data_parts_fs false c).warned = true ∧
    (load_to_data_parts_fs false c).written = some create_default_file_content ∧
    (load_to_data_parts_fs false c).parts =
      (load_to_data_parts (pyLines create_default_file_content)).1 ∧
    ((pyLines create_default_file_content).take 24).all
      (fun l => l.data.head? == some ';') = true ∧
    (pyLines create_default_file_content).get? 25 = some "PACKET SEND TIME, 1, 7" ∧
    (tryMakePart "PACKET SEND TIME, 1, 7").isSome = true ∧
    (load_to_data_parts_fs false c).parts ≠ [] := by
  have hne : (load_to_data_parts (pyLines create_default_file_content)).1 ≠ [] := by decide
  exact ⟨rfl, rfl, rfl, by decide, by decide, by decide, hne⟩

/-- Helper: the double strip performed by the main loop collapses to a
single strip, so one loop step is an if-then-else on the lowercased,
stripped input. -/
theorem main_loop_step_eq (s : String) :
    main_loop_step s =
      if pyLower (pyStrip s) = "q" ∨ pyLower (pyStrip s) = "quit" ∨
          pyLower (pyStrip s) = "exit"
      then none else some (pyStrip s) := by
  show (if pyLower (pyStrip (pyStrip s)) = "q" ∨ pyLower (pyStrip (pyStrip s)) = "quit" ∨
          pyLower (pyStrip (pyStrip s)) = "exit"
        then none else some (pyStrip s)) = _
  rw [pyStrip_idem]

/-- C8: a raw input whose trimmed, lowercased form is `q`, `quit` or `exit`
ends the session (`none`: the display routine is never invoked on it); any
other input is handed to the display routine as the stripped string and the
loop continues (`some`). -/
theorem C8_quit_sentinels_end_session (s : String) :
    ((pyLower (pyStrip s) = "q" ∨ pyLower (pyStrip s) = "quit" ∨
        pyLower (pyStrip s) = "exit") →
      main_loop_step s = none) ∧
    (¬ (pyLower (pyStrip s) = "q" ∨ pyLower (pyStrip s) = "quit" ∨
        pyLower (pyStrip s) = "exit") →
      main_loop_step s = some (pyStrip s)) := by
  constructor
  · intro h
    rw [main_loop_step_eq, if_pos h]
  · intro h
    rw [main_loop_step_eq, if_neg h]

/-- Witness for C8: `"  QuIt "` ends the session, `"  hello "` is passed
on to the display routine. -/
theorem C8_witness :
    main_loop_step "  QuIt " = none ∧
    main_loop_step "  hello " = some (pyStrip "  hello ") :=
  ⟨(C8_quit_sentinels_end_session "  QuIt ").1 (by decide),
   (C8_quit_sentinels_end_session "  hello ").2 (by decide)⟩

/-- C9: `display_items` prints, between the separators, exactly the
`get_data_string` output of each field in sequence order (the printed line
at position `k + 1` is the output of field `k`); threading the field list as
explicit state, it is returned unchanged by one call and by any session of
repeated calls with different input strings. -/
theorem C9_display_items_pure_in_order (ps : List DataPart) (d : String)
    (inputs : List String) :
    (∀ k (hk : k < ps.length),
      (display_items_state ps d).1.get? (k + 1) =
        some ((ps.get ⟨k, hk⟩).get_data_string d)) ∧
    (display_items_state ps d).2 = ps ∧
    display_session ps inputs = ps := by
  refine ⟨?_, rfl, ?_⟩
  · intro k hk
    show ("\n====================================" ::
        (ps.map (fun i => i.get_data_string d) ++
          ["====================================\n", "\nPress enter to continue."])).get?
        (k + 1) = some ((ps.get ⟨k, hk⟩).get_data_string d)
    rw [List.get?_cons_succ, List.get?_append (by rw [List.length_map]; exact hk),
      List.get?_map, List.get?_eq_get hk]
    rfl
  · induction inputs with
    | nil => rfl
    | cons i is ih => exact ih

/-- Witness for C9 on a one-field list and two session inputs. -/
theorem C9_witness :
    (display_items_state [⟨"hour", 1, 2⟩] "/231641h...").1.get? 1 = some "hour: 23" ∧
    (display_items_state [⟨"hour", 1, 2⟩] "/231641h...").2 = [⟨"hour", 1, 2⟩] ∧
    display_session [⟨"hour", 1, 2⟩] ["a", "b"] = [⟨"hour", 1, 2⟩] := by
  have h := C9_display_items_pure_in_order [⟨"hour", 1, 2⟩] "/231641h..." ["a", "b"]
  refine ⟨?_, h.2.1, h.2.2⟩
  rw [h.1 0 (by decide)]
  decide

/-- Witness for C4 (amended) at the concrete line `"bad,1"` between two
good lines. -/
theorem C4_witness :
    tryMakePart (pyStrip "bad,1") = none ∧
    (load_to_data_parts (["a,1,2"] ++ "bad,1" :: ["b,3,4"])).1 =
      (load_to_data_parts (["a,1,2"] ++ ["b,3,4"])).1 ∧
    (load_to_data_parts (["a,1,2"] ++ "bad,1" :: ["b,3,4"])).2 =
      (load_to_data_parts (["a,1,2"] ++ ["b,3,4"])).2 + 1 :=
  C4_amended_bad_line_skipped ["a,1,2"] ["b,3,4"] "bad,1"
    (by decide) (by decide) (by decide)

end BalloonRDT
